import Mathlib

/-!
Shallow embedding of the NZAAT hash package (nzaat.go) and proofs of the
specified properties.

The Go package keeps a single 32-bit accumulator (`type digest uint32`).
We model the accumulator as a natural number kept below 2^32 by explicit
reduction modulo 4294967296 wherever the Go `uint32` arithmetic wraps.
Input bytes are modelled as `Fin 256`.
-/

namespace NZAAT

/-- Input octets of the hash, the elements of a Go byte slice. -/
abbrev Byte := Fin 256

/-- The modulus of the 32-bit accumulator arithmetic. -/
abbrev M : Nat := 4294967296

/-- New returns a fresh engine: `d := new(digest); d.Reset()`, so the
accumulator starts at 0. -/
def New : Nat := 0

/-- Reset sets the accumulator back to 0 (`*d = 0`). -/
def Reset (_d : Nat) : Nat := 0

/-- Body of the loop in Write, for one byte x:
`*d += digest(x) + 1; *d += *d << 10; *d ^= *d >> 6`, on uint32. -/
def update (d : Nat) (x : Byte) : Nat :=
  let d1 := (d + (x.val + 1)) % M
  let d2 := (d1 + (d1 <<< 10)) % M
  d2 ^^^ (d2 >>> 6)

/-- The accumulator after Write runs its loop over the slice p. -/
def write (d : Nat) (p : List Byte) : Nat := p.foldl update d

/-- Write: runs the loop over p, then returns `(len(p), nil)`.
Result: (new accumulator, byte count, error). -/
def Write (d : Nat) (p : List Byte) : Nat × Nat × Option String :=
  (write d p, p.length, none)

/-- Sum32 computes the hash from a local copy `sum` of the accumulator:
`sum += sum << 10; sum ^= sum >> 6; sum += sum << 3; sum ^= sum >> 11;
sum += sum << 15`, on uint32. -/
def Sum32 (d : Nat) : Nat :=
  let s1 := (d + (d <<< 10)) % M
  let s2 := s1 ^^^ (s1 >>> 6)
  let s3 := (s2 + (s2 <<< 3)) % M
  let s4 := s3 ^^^ (s3 >>> 11)
  (s4 + (s4 <<< 15)) % M

/-- Sum32 as a state transformer on the engine: the method only reads the
accumulator through the receiver (all mutation is on the local copy), so
the accumulator component comes back unchanged. -/
def Sum32Run (d : Nat) : Nat × Nat := (Sum32 d, d)

/-- Checksum returns the NZAAT checksum of data:
`h := New(); h.Write(data); return h.Sum32()`. -/
def Checksum (data : List Byte) : Nat :=
  let h := New
  let h := (Write h data).1
  Sum32 h

/-- MIX primitive named in the source header comment:
`MIX(s) -> { s += s << 10; s ^= s >> 6; }` on uint32. -/
def MIX (s : Nat) : Nat :=
  let s1 := (s + (s <<< 10)) % M
  s1 ^^^ (s1 >>> 6)

/-- FIN primitive named in the source header comment:
`FIN(s) -> { s += s << 3; s ^= s >> 11; s += s << 15; }` on uint32. -/
def FIN (s : Nat) : Nat :=
  let s1 := (s + (s <<< 3)) % M
  let s2 := s1 ^^^ (s1 >>> 11)
  (s2 + (s2 <<< 15)) % M

/-- Modelled from the spec: the finalization pipeline section 4.2 describes
for the exported finalize operation (the never-zero variant NZF): one extra
mix step, then forcing a working value of exactly 0 to 1, then the base
postprocess. Defined from the spec words, for comparison with Sum32. -/
def sum32SpecNZF (d : Nat) : Nat :=
  let s1 := (d + (d <<< 10)) % M
  let s2 := s1 ^^^ (s1 >>> 6)
  let s3 := if s2 = 0 then 1 else s2
  let s4 := (s3 + (s3 <<< 3)) % M
  let s5 := s4 ^^^ (s4 >>> 11)
  (s5 + (s5 <<< 15)) % M

/-- ASCII bytes of the string a. -/
def strA : List Byte := [97]

/-- ASCII bytes of the string abc. -/
def strABC : List Byte := [97, 98, 99]

/-- ASCII bytes of the string message digest. -/
def strMessageDigest : List Byte :=
  [109, 101, 115, 115, 97, 103, 101, 32, 100, 105, 103, 101, 115, 116]

/-- The multiply-type atomic step of the mixing pipeline: s += s << k. -/
def mulAdd (k s : Nat) : Nat := (s + (s <<< k)) % M

/-- The xorshift atomic step of the mixing pipeline: s ^= s >> k. -/
def xorShift (k s : Nat) : Nat := s ^^^ (s >>> k)

/-- Left inverse of the xorshift step with shift 6, on values below 2^32. -/
def xs6inv (y : Nat) : Nat :=
  y ^^^ (y >>> 6) ^^^ (y >>> 12) ^^^ (y >>> 18) ^^^ (y >>> 24) ^^^ (y >>> 30)

/-- Left inverse of the xorshift step with shift 11, on values below 2^32. -/
def xs11inv (y : Nat) : Nat := y ^^^ (y >>> 11) ^^^ (y >>> 22)

lemma xorSR (x y n : Nat) : (x ^^^ y) >>> n = (x >>> n) ^^^ (y >>> n) := by
  apply Nat.eq_of_testBit_eq
  intro i
  simp [Nat.testBit_shiftRight, Nat.testBit_xor]

lemma xorCancel (x y : Nat) : x ^^^ (x ^^^ y) = y := by
  rw [← Nat.xor_assoc, Nat.xor_self, Nat.zero_xor]

lemma shiftRight_big_eq_zero {c n : Nat} (hc : c < 2 ^ 32) (hn : 32 ≤ n) :
    c >>> n = 0 := by
  rw [Nat.shiftRight_eq_div_pow]
  exact Nat.div_eq_of_lt (lt_of_lt_of_le hc (Nat.pow_le_pow_right (by norm_num) hn))

lemma xs6_cancel {c : Nat} (hc : c < 2 ^ 32) : xs6inv (xorShift 6 c) = c := by
  have h36 : c >>> 36 = 0 := shiftRight_big_eq_zero hc (by norm_num)
  unfold xs6inv xorShift
  simp only [xorSR, ← Nat.shiftRight_add]
  norm_num
  simp [Nat.xor_assoc, xorCancel, Nat.xor_self, Nat.xor_zero, h36]

lemma xs11_cancel {c : Nat} (hc : c < 2 ^ 32) : xs11inv (xorShift 11 c) = c := by
  have h33 : c >>> 33 = 0 := shiftRight_big_eq_zero hc (by norm_num)
  unfold xs11inv xorShift
  simp only [xorSR, ← Nat.shiftRight_add]
  norm_num
  simp [Nat.xor_assoc, xorCancel, Nat.xor_self, Nat.xor_zero, h33]

lemma xorShift6_injOn {a b : Nat} (ha : a < 2 ^ 32) (hb : b < 2 ^ 32)
    (h : xorShift 6 a = xorShift 6 b) : a = b := by
  have h2 := congrArg xs6inv h
  rwa [xs6_cancel ha, xs6_cancel hb] at h2

lemma xorShift11_injOn {a b : Nat} (ha : a < 2 ^ 32) (hb : b < 2 ^ 32)
    (h : xorShift 11 a = xorShift 11 b) : a = b := by
  have h2 := congrArg xs11inv h
  rwa [xs11_cancel ha, xs11_cancel hb] at h2

lemma mulAdd_eq (k s : Nat) : mulAdd k s = s * (2 ^ k + 1) % M := by
  unfold mulAdd
  rw [Nat.shiftLeft_eq]
  congr 1
  ring

lemma mulAdd_injOn {k a b : Nat} (hk : Nat.gcd 4294967296 (2 ^ k + 1) = 1)
    (ha : a < 2 ^ 32) (hb : b < 2 ^ 32)
    (h : mulAdd k a = mulAdd k b) : a = b := by
  rw [mulAdd_eq, mulAdd_eq] at h
  have h2 : (2 ^ k + 1) * a ≡ (2 ^ k + 1) * b [MOD 4294967296] := by
    unfold Nat.ModEq
    rw [Nat.mul_comm (2 ^ k + 1) a, Nat.mul_comm (2 ^ k + 1) b]
    exact h
  have h3 := Nat.ModEq.cancel_left_of_coprime hk h2
  unfold Nat.ModEq at h3
  have ha2 : a < 4294967296 := lt_of_lt_of_le ha (by norm_num)
  have hb2 : b < 4294967296 := lt_of_lt_of_le hb (by norm_num)
  rwa [Nat.mod_eq_of_lt ha2, Nat.mod_eq_of_lt hb2] at h3

lemma mod_M_lt (s : Nat) : s % M < 2 ^ 32 := Nat.mod_lt _ (by norm_num)

lemma mulAdd_lt (k s : Nat) : mulAdd k s < 2 ^ 32 := mod_M_lt _

lemma xorShift_lt (k : Nat) {s : Nat} (hs : s < 2 ^ 32) : xorShift k s < 2 ^ 32 := by
  unfold xorShift
  refine Nat.xor_lt_two_pow hs (lt_of_le_of_lt ?_ hs)
  rw [Nat.shiftRight_eq_div_pow]
  exact Nat.div_le_self _ _

lemma sum32_decomp (d : Nat) :
    Sum32 d = mulAdd 15 (xorShift 11 (mulAdd 3 (xorShift 6 (mulAdd 10 d)))) := rfl

lemma sum32_injOn {a b : Nat} (ha : a < 2 ^ 32) (hb : b < 2 ^ 32)
    (h : Sum32 a = Sum32 b) : a = b := by
  rw [sum32_decomp, sum32_decomp] at h
  have h1 := mulAdd_injOn (k := 15) (by norm_num)
    (xorShift_lt 11 (mulAdd_lt 3 _)) (xorShift_lt 11 (mulAdd_lt 3 _)) h
  have h2 := xorShift11_injOn (mulAdd_lt 3 _) (mulAdd_lt 3 _) h1
  have h3 := mulAdd_injOn (k := 3) (by norm_num)
    (xorShift_lt 6 (mulAdd_lt 10 _)) (xorShift_lt 6 (mulAdd_lt 10 _)) h2
  have h4 := xorShift6_injOn (mulAdd_lt 10 _) (mulAdd_lt 10 _) h3
  exact mulAdd_injOn (k := 10) (by norm_num) ha hb h4

lemma sum32_zero_iff {s : Nat} (hs : s < 2 ^ 32) : Sum32 s = 0 ↔ s = 0 := by
  constructor
  · intro h
    exact sum32_injOn hs (by norm_num) h
  · rintro rfl
    rfl

lemma update_lt (d : Nat) (x : Byte) : update d x < 2 ^ 32 := by
  unfold update
  exact xorShift_lt 6 (mod_M_lt _)

lemma write_lt : ∀ (p : List Byte) (d : Nat), d < 2 ^ 32 → write d p < 2 ^ 32
  | [], _, hd => hd
  | x :: rest, d, _ => write_lt rest (update d x) (update_lt d x)

/-- C1 counterexample: the byte sequence [26, 85, 129, 181] is nonempty,
yet its one-shot checksum is 0, because ingesting it drives the
accumulator back to 0 and Sum32 has no force-to-1 step. -/
theorem checksum_zero_on_nonempty_counterexample :
    Checksum [26, 85, 129, 181] = 0 ∧ ([26, 85, 129, 181] : List Byte) ≠ [] :=
  ⟨by decide, by decide⟩

/-- C1 (amended): the one-shot checksum of a byte sequence is 0 exactly
when ingesting the sequence from the zero accumulator returns the
accumulator to 0; nonzero output is not guaranteed for every nonempty
input. -/
theorem checksum_zero_iff_accumulator_zero :
    ∀ x : List Byte, Checksum x = 0 ↔ write New x = 0 := by
  intro x
  have hw : write New x < 2 ^ 32 := write_lt x New (by norm_num [New])
  exact sum32_zero_iff hw

/-- C2 counterexample: at accumulator value 0, Sum32 returns 0, while the
pipeline the claim describes (extra mix, force 0 to 1, base postprocess)
returns 294921; so Sum32 does not contain the force-to-1 step. -/
theorem sum32_differs_from_nzf_pipeline :
    Sum32 0 = 0 ∧ sum32SpecNZF 0 = 294921 ∧ Sum32 0 ≠ sum32SpecNZF 0 :=
  ⟨rfl, rfl, by decide⟩

/-- C2 (amended): Sum32 computes its result on a working copy by applying
the extra mix step (s += s << 10; s ^= s >> 6) and then directly the base
postprocess (s += s << 3; s ^= s >> 11; s += s << 15), all modulo 2^32,
with no force-to-1 step in between; in particular accumulator 0 finalizes
to 0. -/
theorem sum32_is_mix_then_fin :
    (∀ d : Nat, Sum32 d = FIN (MIX d)) ∧ Sum32 0 = 0 := by
  refine ⟨fun d => ?_, rfl⟩
  simp only [Sum32, FIN, MIX]

/-- C3: Sum32 on a freshly constructed engine, or on an engine right after
Reset, with accumulator 0, returns exactly 0. -/
theorem sum32_zero_on_fresh_or_reset :
    Sum32 New = 0 ∧ ∀ d : Nat, Sum32 (Reset d) = 0 := by
  refine ⟨rfl, fun d => ?_⟩
  show Sum32 0 = 0
  rfl

/-- C4: the reference vectors hold exactly: Checksum of the ASCII bytes of
a is 0xC31517C4, of abc is 0xC3E39E2D, and of message digest is
0x434B78B4. -/
theorem reference_vectors :
    Checksum strA = 0xC31517C4 ∧ Checksum strABC = 0xC3E39E2D ∧
    Checksum strMessageDigest = 0x434B78B4 :=
  ⟨by decide, by decide, by decide⟩

/-- C5: ingestion processes the bytes left to right, one at a time, and
for each byte b maps the accumulator s to s1 = (s + (b + 1)) mod 2^32,
then s2 = (s1 + s1 * 2^10) mod 2^32, then s2 xor (s2 / 2^6), the division
being the unsigned right shift; no other state exists or changes. -/
theorem write_left_to_right_per_byte :
    (∀ d : Nat, write d [] = d) ∧
    ∀ (d : Nat) (b : Byte) (rest : List Byte),
      write d (b :: rest) =
        write (let s1 := (d + (b.val + 1)) % 2 ^ 32
               let s2 := (s1 + s1 * 2 ^ 10) % 2 ^ 32
               s2 ^^^ s2 / 2 ^ 6) rest := by
  refine ⟨fun _ => rfl, fun d b rest => ?_⟩
  show write (update d b) rest = _
  congr 1
  unfold update
  simp [M, Nat.shiftLeft_eq, Nat.shiftRight_eq_div_pow]

/-- C6: Sum32 does not mutate the accumulator — the engine state after the
call equals the state before — and a second Sum32 call with no ingestion
in between returns the same result. -/
theorem sum32_preserves_accumulator :
    ∀ d : Nat, (Sum32Run d).2 = d ∧ (Sum32Run (Sum32Run d).2).1 = (Sum32Run d).1 :=
  fun _ => ⟨rfl, rfl⟩

/-- C7: Write always returns the pair (length of the input, nil error),
for every state and every byte sequence, and writing the empty sequence
leaves the accumulator unchanged. -/
theorem write_consumes_all_never_errors :
    ∀ (d : Nat) (p : List Byte),
      (Write d p).2.1 = p.length ∧ (Write d p).2.2 = none ∧ (Write d []).1 = d :=
  fun _ _ => ⟨rfl, rfl, rfl⟩

/-- C8: incremental consistency — ingesting x1 then x2 from a fresh engine
and finalizing gives the same result as ingesting x1 ++ x2 in one call. -/
theorem incremental_consistency :
    ∀ x1 x2 : List Byte,
      Sum32 ((Write ((Write New x1).1) x2).1) = Sum32 ((Write New (x1 ++ x2)).1) := by
  intro x1 x2
  simp [Write, write, List.foldl_append]

/-- C9: the one-shot Checksum equals the streaming pipeline: fresh engine
from New (accumulator 0), Write the data, then Sum32. -/
theorem checksum_eq_streaming_pipeline :
    ∀ data : List Byte, Checksum data = Sum32 ((Write New data).1) :=
  fun _ => rfl

/-- C10: on 32-bit values the finalization Sum32 is injective (hence a
bijection of the finite set), and consequently Sum32 returns 0 exactly
when the accumulator is 0. -/
theorem sum32_injective_and_zero_iff :
    (∀ a b : Nat, a < 2 ^ 32 → b < 2 ^ 32 → Sum32 a = Sum32 b → a = b) ∧
    ∀ s : Nat, s < 2 ^ 32 → (Sum32 s = 0 ↔ s = 0) :=
  ⟨fun _ _ ha hb h => sum32_injOn ha hb h, fun _ hs => sum32_zero_iff hs⟩

/-- Witness for C10: the theorem applied at the concrete inputs 3, 5 and
7, whose bounds are discharged by computation. -/
theorem sum32_injective_and_zero_iff_witness :
    (Sum32 3 = Sum32 5 → (3 : Nat) = 5) ∧ (Sum32 7 = 0 ↔ (7 : Nat) = 0) :=
  ⟨sum32_injective_and_zero_iff.1 3 5 (by decide) (by decide),
   sum32_injective_and_zero_iff.2 7 (by decide)⟩

end NZAAT
